import Mathlib

/-!
Shallow embedding of the single-file Rust HTTP CRUD service (src/main.rs).

Request texts are modelled as lists of characters.  Effects of the
`postgres` client are modelled explicitly: `connectOk` is the outcome of
`Client::connect`, `execOk` the outcome of a write-path `execute`,
`queryOk` the outcome of the read-path `query` in the GetAll handler.
A handler that calls `.unwrap()` on a failed result aborts handling of
that request; abortion is modelled by `Option`/`none` on the handler's
result.  The database table is a list of rows plus the next SERIAL id.
-/

namespace Crud

/-- Rust i32 minimum. -/
def i32Min : Int := -2147483648

/-- Rust i32 maximum. -/
def i32Max : Int := 2147483647

/-- The `User` struct of src/main.rs: `id: Option<i32>, name: String, email: String`. -/
structure User where
  id : Option Int
  name : String
  email : String
deriving DecidableEq, Repr

/-- One row of the `users` table (`id SERIAL PRIMARY KEY, name, email`). -/
structure Row where
  id : Int
  name : String
  email : String
deriving DecidableEq, Repr

/-- The `users` table together with the next SERIAL value. -/
structure Db where
  rows : List Row
  nextId : Int
deriving DecidableEq, Repr

/-- Constant `OK_RESPONSE` of src/main.rs. -/
def OK_RESPONSE : String := "HTTP/1.1 200 OK\r\nContent-Type: application/json\r\n\r\n"

/-- Constant `NOT_FOUND` of src/main.rs. -/
def NOT_FOUND : String := "HTTP/1.1 404 NOT FOUND\r\n\r\n"

/-- Constant `INTERNAL_SERVER_ERROR` of src/main.rs. -/
def INTERNAL_SERVER_ERROR : String := "HTTP/1.1 500 INTERNAL_SERVER_ERROR\r\n\r\n"

/-! ## Serialization (serde_json::to_string for `User` and `Vec<User>`) -/

/-- Lower-case hexadecimal digit, as used by serde_json's escape table. -/
def hexDigitChar (n : Nat) : Char := if n < 10 then Char.ofNat (48 + n) else Char.ofNat (87 + n)

/-- serde_json escaping of one character inside a JSON string:
quotes and backslashes get a backslash escape, control characters get
either a short escape or a lower-case u-escape, all else is verbatim. -/
def escapeChar (c : Char) : List Char :=
  if c = '"' then ['\\', '"']
  else if c = '\\' then ['\\', '\\']
  else if c.toNat < 32 then
    if c.toNat = 8 then ['\\', 'b']
    else if c.toNat = 9 then ['\\', 't']
    else if c.toNat = 10 then ['\\', 'n']
    else if c.toNat = 12 then ['\\', 'f']
    else if c.toNat = 13 then ['\\', 'r']
    else ['\\', 'u', '0', '0', hexDigitChar (c.toNat / 16), hexDigitChar (c.toNat % 16)]
  else [c]

/-- Escape a whole character sequence. -/
def escList (s : List Char) : List Char := (s.map escapeChar).flatten

/-- A JSON string literal: quote, escaped content, quote. -/
def jstrChars (s : String) : List Char := '"' :: (escList s.data ++ ['"'])

/-- Decimal digit character. -/
def digitChar (d : Nat) : Char := Char.ofNat (48 + d)

/-- Little-endian decimal digits of a positive number, with explicit fuel
so that the kernel can evaluate it; `fuel ≥ n` always suffices. -/
def natDigitsRevA : Nat → Nat → List Char
  | _, 0 => []
  | 0, _ => []
  | f + 1, n + 1 => digitChar ((n + 1) % 10) :: natDigitsRevA f ((n + 1) / 10)

/-- Decimal rendering of a natural number. -/
def renderNat (n : Nat) : List Char := if n = 0 then ['0'] else (natDigitsRevA n n).reverse

/-- Decimal rendering of an integer, as produced by itoa/serde_json for i32. -/
def renderInt (n : Int) : List Char :=
  if n < 0 then '-' :: renderNat n.natAbs else renderNat n.natAbs

/-- serde_json::to_string for `User`: fields in declaration order
`id, name, email`; `None` ids serialize as `null`. -/
def userToJsonChars (u : User) : List Char :=
  ("\x7b\"id\":").toList
    ++ (match u.id with
        | some n => renderInt n
        | none => ("null").toList)
    ++ (",\"name\":").toList ++ jstrChars u.name
    ++ (",\"email\":").toList ++ jstrChars u.email
    ++ ['\x7d']

/-- Row-to-User mapping used by the read handlers: `id` becomes `Some`. -/
def rowToUser (r : Row) : User := ⟨some r.id, r.name, r.email⟩

/-- Comma-separated serialization of the users of a row list. -/
def usersJsonCharsAux : List Row → List Char
  | [] => []
  | [r] => userToJsonChars (rowToUser r)
  | r :: rest => userToJsonChars (rowToUser r) ++ ',' :: usersJsonCharsAux rest

/-- serde_json::to_string for `Vec<User>`: a JSON array. -/
def usersJsonChars (rows : List Row) : List Char := '[' :: (usersJsonCharsAux rows ++ [']'])

/-! ## Request-text splitting -/

/-- The separator `"\r\n\r\n"`. -/
def sepCRLF2 : List Char := ['\r', '\n', '\r', '\n']

/-- Rust `str::split("\r\n\r\n")`: greedy leftmost non-overlapping matches;
fueled so that the kernel can evaluate it, `fuel ≥ length` suffices. -/
def splitA : Nat → List Char → List (List Char)
  | _, [] => [[]]
  | 0, l => [l]
  | f + 1, c :: cs =>
    if sepCRLF2.isPrefixOf (c :: cs) then [] :: splitA f (cs.drop 3)
    else
      match splitA f cs with
      | [] => [[c]]
      | h :: t => (c :: h) :: t

/-- Split a request text at every `"\r\n\r\n"`. -/
def splitCRLF2 (l : List Char) : List (List Char) := splitA l.length l

/-- Rust `str::split("/")`. -/
def splitSlash : List Char → List (List Char)
  | [] => [[]]
  | c :: cs =>
    if c = '/' then [] :: splitSlash cs
    else
      match splitSlash cs with
      | [] => [[c]]
      | h :: t => (c :: h) :: t

/-- Rust `char::is_whitespace` (Unicode White_Space). -/
def isRustWhitespace (c : Char) : Bool :=
  c = ' ' || c = '\t' || c = '\n' || c = Char.ofNat 11 || c = Char.ofNat 12 || c = '\r' ||
  c = Char.ofNat 133 || c = Char.ofNat 160 || c = Char.ofNat 0x1680 ||
  (0x2000 ≤ c.toNat && c.toNat ≤ 0x200A) ||
  c = Char.ofNat 0x2028 || c = Char.ofNat 0x2029 || c = Char.ofNat 0x202F ||
  c = Char.ofNat 0x205F || c = Char.ofNat 0x3000

/-- Rust `str::split_whitespace`: the maximal whitespace-free runs;
fueled, `fuel ≥ length` suffices. -/
def wordsA : Nat → List Char → List (List Char)
  | _, [] => []
  | 0, _ => []
  | f + 1, c :: cs =>
    if isRustWhitespace c then wordsA f cs
    else (c :: cs.takeWhile (fun x => !isRustWhitespace x))
      :: wordsA f (cs.dropWhile (fun x => !isRustWhitespace x))

/-- The whitespace-separated words of a character sequence. -/
def wordsOf (l : List Char) : List (List Char) := wordsA l.length l

/-- `get_id` of src/main.rs: third `/`-token (default empty), then
`split_whitespace().next()` with empty default. -/
def get_id (r : List Char) : List Char := (wordsOf ((splitSlash r).getD 2 [])).headD []

/-- Rust `str::parse::<i32>`: optional sign, one or more ASCII digits,
rejected on overflow of the 32-bit range. -/
def parseI32 (s : List Char) : Option Int :=
  let p := match s with
    | '+' :: t => (false, t)
    | '-' :: t => (true, t)
    | t => (false, t)
  if p.2.isEmpty then none
  else if !p.2.all Char.isDigit then none
  else
    let v : Nat := p.2.foldl (fun a c => a * 10 + (c.toNat - 48)) 0
    if p.1 then
      if v ≤ 2147483648 then some (-(v : Int)) else none
    else
      if v ≤ 2147483647 then some ((v : Int)) else none

/-! ## JSON parsing (serde_json::from_str for `User`) -/

/-- JSON values as serde_json sees them; numbers that carry a fraction,
an exponent, or overflow the 64-bit integer ranges become floats, which
always fail deserialization into the fields of `User`. -/
inductive Json where
  | jnull
  | jbool (b : Bool)
  | jint (n : Int)
  | jfloat
  | jstr (s : String)
  | jarr (elems : List Json)
  | jobj (fields : List (String × Json))
deriving Repr

/-- JSON whitespace. -/
def isJsonWs (c : Char) : Bool := c = ' ' || c = '\t' || c = '\n' || c = '\r'

/-- Drop leading JSON whitespace. -/
def skipWs (l : List Char) : List Char := l.dropWhile isJsonWs

/-- Hexadecimal digit value, both cases. -/
def hexVal (c : Char) : Option Nat :=
  if 48 ≤ c.toNat ∧ c.toNat ≤ 57 then some (c.toNat - 48)
  else if 97 ≤ c.toNat ∧ c.toNat ≤ 102 then some (c.toNat - 87)
  else if 65 ≤ c.toNat ∧ c.toNat ≤ 70 then some (c.toNat - 55)
  else none

/-- JSON string body parser, positioned after the opening quote; returns
the decoded content and the rest after the closing quote.  Handles the
backslash escapes and u-escapes with surrogate pairs, rejects raw control
characters; fueled, `fuel ≥ length` suffices. -/
def parseStrA : Nat → List Char → Option (List Char × List Char)
  | _, [] => none
  | 0, _ => none
  | f + 1, c :: cs =>
    if c = '"' then some ([], cs)
    else if c = '\\' then
      match cs with
      | '"' :: t => (parseStrA f t).map (fun p => ('"' :: p.1, p.2))
      | '\\' :: t => (parseStrA f t).map (fun p => ('\\' :: p.1, p.2))
      | '/' :: t => (parseStrA f t).map (fun p => ('/' :: p.1, p.2))
      | 'b' :: t => (parseStrA f t).map (fun p => (Char.ofNat 8 :: p.1, p.2))
      | 'f' :: t => (parseStrA f t).map (fun p => (Char.ofNat 12 :: p.1, p.2))
      | 'n' :: t => (parseStrA f t).map (fun p => ('\n' :: p.1, p.2))
      | 'r' :: t => (parseStrA f t).map (fun p => ('\r' :: p.1, p.2))
      | 't' :: t => (parseStrA f t).map (fun p => ('\t' :: p.1, p.2))
      | 'u' :: h1 :: h2 :: h3 :: h4 :: t =>
        (match hexVal h1, hexVal h2, hexVal h3, hexVal h4 with
         | some a, some b, some c2, some d =>
           let n := 4096 * a + 256 * b + 16 * c2 + d
           if 0xD800 ≤ n ∧ n ≤ 0xDBFF then
             match t with
             | '\\' :: 'u' :: g1 :: g2 :: g3 :: g4 :: t2 =>
               (match hexVal g1, hexVal g2, hexVal g3, hexVal g4 with
                | some a2, some b2, some c3, some d2 =>
                  let m := 4096 * a2 + 256 * b2 + 16 * c3 + d2
                  if 0xDC00 ≤ m ∧ m ≤ 0xDFFF then
                    (parseStrA f t2).map
                      (fun p => (Char.ofNat (0x10000 + (n - 0xD800) * 1024 + (m - 0xDC00)) :: p.1, p.2))
                  else none
                | _, _, _, _ => none)
             | _ => none
           else if 0xDC00 ≤ n ∧ n ≤ 0xDFFF then none
           else (parseStrA f t).map (fun p => (Char.ofNat n :: p.1, p.2))
         | _, _, _, _ => none)
      | _ => none
    else if c.toNat < 32 then none
    else (parseStrA f cs).map (fun p => (c :: p.1, p.2))

/-- Numeric value of a digit run. -/
def digitsVal (ds : List Char) : Nat := ds.foldl (fun a c => a * 10 + (c.toNat - 48)) 0

/-- Integral JSON numbers within serde_json's u64/i64 parse range stay
integers, larger ones fall back to float. -/
def intOrFloat (neg : Bool) (ds : List Char) : Json :=
  let v := digitsVal ds
  if neg then
    if v ≤ 9223372036854775808 then .jint (-(v : Int)) else .jfloat
  else
    if v ≤ 18446744073709551615 then .jint ((v : Int)) else .jfloat

/-- Exponent tail after the letter e: optional sign, one or more digits. -/
def parseExpTail (l : List Char) : Option (Json × List Char) :=
  let l2 := match l with
    | '+' :: t => t
    | '-' :: t => t
    | _ => l
  if (l2.takeWhile Char.isDigit).isEmpty then none
  else some (.jfloat, l2.dropWhile Char.isDigit)

/-- JSON number parser after the optional minus sign: integer part
without leading zeros, optional fraction and exponent (which make it a
float). -/
def parseNumberBody (neg : Bool) (l2 : List Char) : Option (Json × List Char) :=
  match l2 with
  | [] => none
  | c :: _ =>
    if !c.isDigit then none
    else
      let ds := l2.takeWhile Char.isDigit
      let r1 := l2.dropWhile Char.isDigit
      if 1 < ds.length ∧ ds.head? = some '0' then none
      else
        match r1 with
        | '.' :: r2 =>
          if (r2.takeWhile Char.isDigit).isEmpty then none
          else
            (match r2.dropWhile Char.isDigit with
             | e :: r4 =>
               if e = 'e' ∨ e = 'E' then parseExpTail r4
               else some (.jfloat, e :: r4)
             | [] => some (.jfloat, []))
        | e :: r2 =>
          if e = 'e' ∨ e = 'E' then parseExpTail r2
          else some (intOrFloat neg ds, e :: r2)
        | [] => some (intOrFloat neg ds, [])

/-- JSON number parser: optional minus, then the number body. -/
def parseNumber (l : List Char) : Option (Json × List Char) :=
  match l with
  | '-' :: t => parseNumberBody true t
  | _ => parseNumberBody false l

mutual

/-- JSON value parser with explicit nesting fuel; every recursive call
sits behind at least one consumed character, so `length + 2` fuel always
suffices. -/
def parseValue : Nat → List Char → Option (Json × List Char)
  | 0, _ => none
  | f + 1, l0 =>
    match skipWs l0 with
    | '\x7b' :: t =>
      (match skipWs t with
       | '\x7d' :: r => some (.jobj [], r)
       | t2 => (parseMembers f t2).map (fun p => (.jobj p.1, p.2)))
    | '[' :: t =>
      (match skipWs t with
       | ']' :: r => some (.jarr [], r)
       | t2 => (parseElems f t2).map (fun p => (.jarr p.1, p.2)))
    | '"' :: t => (parseStrA t.length t).map (fun p => (.jstr (String.mk p.1), p.2))
    | 't' :: t => if ("rue").toList.isPrefixOf t then some (.jbool true, t.drop 3) else none
    | 'f' :: t => if ("alse").toList.isPrefixOf t then some (.jbool false, t.drop 4) else none
    | 'n' :: t => if ("ull").toList.isPrefixOf t then some (.jnull, t.drop 3) else none
    | l => parseNumber l

/-- Object members: string key, colon, value, then comma or closing brace. -/
def parseMembers : Nat → List Char → Option (List (String × Json) × List Char)
  | 0, _ => none
  | f + 1, l0 =>
    match skipWs l0 with
    | '"' :: t =>
      (match parseStrA t.length t with
       | none => none
       | some kp =>
         match skipWs kp.2 with
         | ':' :: r2 =>
           (match parseValue f r2 with
            | none => none
            | some vp =>
              match skipWs vp.2 with
              | ',' :: r4 => (parseMembers f r4).map (fun p => ((String.mk kp.1, vp.1) :: p.1, p.2))
              | '\x7d' :: r4 => some ([(String.mk kp.1, vp.1)], r4)
              | _ => none)
         | _ => none)
    | _ => none

/-- Array elements: value, then comma or closing bracket. -/
def parseElems : Nat → List Char → Option (List Json × List Char)
  | 0, _ => none
  | f + 1, l0 =>
    match parseValue f l0 with
    | none => none
    | some vp =>
      match skipWs vp.2 with
      | ',' :: r2 => (parseElems f r2).map (fun p => (vp.1 :: p.1, p.2))
      | ']' :: r2 => some ([vp.1], r2)
      | _ => none

end

/-- Full-text JSON parse: one value, only whitespace may remain. -/
def jsonFromStr (l : List Char) : Option Json :=
  match parseValue (l.length + 2) l with
  | some p => if (skipWs p.2).isEmpty then some p.1 else none
  | none => none

/-- Deserialization of `Option<i32>`: null gives None, an in-range
integer gives Some, everything else errors. -/
def jsonToOptI32 : Json → Option (Option Int)
  | .jnull => some none
  | .jint n => if i32Min ≤ n ∧ n ≤ i32Max then some (some n) else none
  | _ => none

/-- Deserialization of `String`: only a JSON string is accepted. -/
def jsonToStr : Json → Option String
  | .jstr s => some s
  | _ => none

/-- Derived map visitor for `User`: walks the key-value pairs, rejects
duplicate fields, skips unknown fields, requires name and email, defaults
a missing id to None. -/
def userFieldsGo : List (String × Json) → Option (Option Int) → Option String → Option String → Option User
  | [], seenId, some nm, some em => some ⟨seenId.getD none, nm, em⟩
  | [], _, _, _ => none
  | (k, v) :: rest, seenId, nm, em =>
    if k = ("id") then
      match seenId with
      | some _ => none
      | none =>
        match jsonToOptI32 v with
        | some oi => userFieldsGo rest (some oi) nm em
        | none => none
    else if k = ("name") then
      match nm with
      | some _ => none
      | none =>
        match jsonToStr v with
        | some s => userFieldsGo rest seenId (some s) em
        | none => none
    else if k = ("email") then
      match em with
      | some _ => none
      | none =>
        match jsonToStr v with
        | some s => userFieldsGo rest seenId nm (some s)
        | none => none
    else userFieldsGo rest seenId nm em

/-- serde deserialization of `User` from a JSON value: a map, or a
sequence of exactly the three fields in declaration order. -/
def userFromJson : Json → Option User
  | .jobj kvs => userFieldsGo kvs none none none
  | .jarr [iv, nv, ev] =>
    (match jsonToOptI32 iv, jsonToStr nv, jsonToStr ev with
     | some oi, some nm, some em => some ⟨oi, nm, em⟩
     | _, _, _ => none)
  | _ => none

/-- serde_json::from_str::<User>. -/
def userFromStr (l : List Char) : Option User := (jsonFromStr l).bind userFromJson

/-- The JSON value a `User` serializes to: fields in declaration order. -/
def userJson (u : User) : Json :=
  .jobj [(("id"), match u.id with | some n => Json.jint n | none => Json.jnull),
         (("name"), .jstr u.name), (("email"), .jstr u.email)]

/-- `get_user_from_request_body` of src/main.rs:
`serde_json::from_str(request.split("\r\n\r\n").last().unwrap_or_default())`. -/
def get_user_from_request_body (r : List Char) : Option User :=
  userFromStr ((splitCRLF2 r).getLastD [])

/-! ## Handlers -/

/-- The INSERT of the Create handler: a fresh row from name and email
only; the SERIAL primary key assigns the id. -/
def insertUser (db : Db) (u : User) : Db :=
  ⟨db.rows ++ [⟨db.nextId, u.name, u.email⟩], db.nextId + 1⟩

/-- `handle_post_request`: parse body and connect; any failure of either
is the conflated 500 "Error"; the write-path execute is unwrapped, so its
failure aborts (none). -/
def handle_post_request (r : List Char) (connectOk execOk : Bool) (db : Db) :
    Option ((String × String) × Db) :=
  match get_user_from_request_body r, connectOk with
  | some u, true =>
    if execOk then some ((OK_RESPONSE, ("User Created")), insertUser db u)
    else none
  | _, _ => some ((INTERNAL_SERVER_ERROR, ("Error")), db)

/-- `handle_get_request`: parse the id, connect, query_one (ok exactly
when one row matches), serialize the row. -/
def handle_get_request (r : List Char) (connectOk : Bool) (rows : List Row) : String × String :=
  match parseI32 (get_id r) with
  | none => (INTERNAL_SERVER_ERROR, ("Invalid ID"))
  | some n =>
    if connectOk then
      match rows.filter (fun row => row.id == n) with
      | [row] => (OK_RESPONSE, String.mk (userToJsonChars (rowToUser row)))
      | _ => (NOT_FOUND, ("User not found"))
    else (INTERNAL_SERVER_ERROR, ("Database error"))

/-- `handle_get_all_request`: connect, then the read query is unwrapped,
so its failure aborts (none); otherwise all rows are serialized. -/
def handle_get_all_request (_r : List Char) (connectOk queryOk : Bool) (rows : List Row) :
    Option (String × String) :=
  if connectOk then
    if queryOk then some (OK_RESPONSE, String.mk (usersJsonChars rows))
    else none
  else some (INTERNAL_SERVER_ERROR, ("Database error"))

/-- `handle_delete_request`: parse the id, connect, execute the DELETE
(unwrapped, so its failure aborts), 404 when zero rows were affected. -/
def handle_delete_request (r : List Char) (connectOk execOk : Bool) (rows : List Row) :
    Option ((String × String) × List Row) :=
  match parseI32 (get_id r) with
  | none => some ((INTERNAL_SERVER_ERROR, ("Invalid ID")), rows)
  | some n =>
    if connectOk then
      if execOk then
        if (rows.filter (fun row => row.id == n)).length = 0 then
          some ((NOT_FOUND, ("User not found")), rows)
        else some ((OK_RESPONSE, ("User Deleted")), rows.filter (fun row => !(row.id == n)))
      else none
    else some ((INTERNAL_SERVER_ERROR, ("Database error")), rows)

/-- The route chosen by `handle_client`. -/
inductive Route where
  | post
  | getOne
  | getAll
  | del
  | notFound
deriving DecidableEq, Repr

/-- The dispatch of `handle_client`: literal starts_with tests in the
source's order, first match wins. -/
def route (r : List Char) : Route :=
  if (("POST /users").toList).isPrefixOf r then .post
  else if (("GET /users/").toList).isPrefixOf r then .getOne
  else if (("GET /users").toList).isPrefixOf r then .getAll
  else if (("DELETE /users/").toList).isPrefixOf r then .del
  else .notFound

/-- `handle_client` after a successful read: dispatch and run the
matching handler; the unmatched case responds 404 "Not Found". -/
def handle_client (r : List Char) (connectOk execOk queryOk : Bool) (db : Db) :
    Option ((String × String) × Db) :=
  match route r with
  | .post => handle_post_request r connectOk execOk db
  | .getOne => some (handle_get_request r connectOk db.rows, db)
  | .getAll => (handle_get_all_request r connectOk queryOk db.rows).map (fun p => (p, db))
  | .del => (handle_delete_request r connectOk execOk db.rows).map (fun p => (p.1, ⟨p.2, db.nextId⟩))
  | .notFound => some ((NOT_FOUND, ("Not Found")), db)

/-- The bytes written back: `format!("\x7b\x7d\x7b\x7d", status_line, content)`. -/
def responseText (p : String × String) : String := p.1 ++ p.2

/-! ## Definitions taken from the specification's words, for comparison -/

/-- Dispatch as the specification words it: an ordered table of literal
route heads, first match wins, default 404. -/
def routeTable : List (List Char × Route) :=
  [((("POST /users").toList), .post), ((("GET /users/").toList), .getOne),
   ((("GET /users").toList), .getAll), ((("DELETE /users/").toList), .del)]

/-- First-match-wins lookup over the route table. -/
def routeSpec (r : List Char) : Route :=
  ((routeTable.find? (fun p => p.1.isPrefixOf r)).map Prod.snd).getD .notFound

/-- The substring after the FIRST occurrence of `"\r\n\r\n"`, as claim C5
words the body extraction (empty when there is no occurrence). -/
def afterFirstCRLF2 : List Char → List Char
  | [] => []
  | c :: cs => if sepCRLF2.isPrefixOf (c :: cs) then cs.drop 3 else afterFirstCRLF2 cs

/-- The identifier as claim C7 words it: the third slash token truncated
at its first whitespace character. -/
def specIdTrunc (r : List Char) : List Char :=
  ((splitSlash r).getD 2 []).takeWhile (fun c => !isRustWhitespace c)

/-- The Content-Type header line fragment. -/
def ctHeader : List Char := ("Content-Type: application/json").toList

/-- Whether `pat` occurs as a contiguous subsequence of `l`. -/
def containsSeq (pat : List Char) : List Char → Bool
  | [] => pat.isEmpty
  | c :: xs => pat.isPrefixOf (c :: xs) || containsSeq pat xs

/-! ## Helper lemmas -/

theorem isPrefixOf_append_self (l t : List Char) : l.isPrefixOf (l ++ t) = true := by
  induction l with
  | nil => simp [List.isPrefixOf]
  | cons c cs ih => simp [List.isPrefixOf, ih]

theorem isPrefixOf_ext (pat l t : List Char) (h : pat.isPrefixOf l = true) :
    pat.isPrefixOf (l ++ t) = true := by
  induction pat generalizing l with
  | nil => simp [List.isPrefixOf]
  | cons c cs ih =>
    cases l with
    | nil => simp [List.isPrefixOf] at h
    | cons d ds =>
      simp only [List.isPrefixOf, Bool.and_eq_true, beq_iff_eq] at h ⊢
      exact ⟨h.1, ih ds h.2⟩

theorem isPrefixOf_cons_ne (a b : Char) (x y : List Char) (h : a ≠ b) :
    (a :: x).isPrefixOf (b :: y) = false := by
  simp [List.isPrefixOf, h]

theorem isPrefixOf_append_both (a x y : List Char) :
    (a ++ x).isPrefixOf (a ++ y) = x.isPrefixOf y := by
  induction a with
  | nil => simp
  | cons c cs ih => simp [List.isPrefixOf, ih]

theorem isPrefixOf_false_iff (x y : List Char) : x.isPrefixOf y = false ↔ ¬ x <+: y := by
  rw [← List.isPrefixOf_iff_prefix]
  cases hx : x.isPrefixOf y <;> simp

theorem containsSeq_nil (l : List Char) : containsSeq [] l = true := by
  cases l <;> simp [containsSeq, List.isPrefixOf]

theorem containsSeq_append_left (pat a b : List Char) (h : containsSeq pat a = true) :
    containsSeq pat (a ++ b) = true := by
  induction a with
  | nil =>
    simp [containsSeq] at h
    subst h
    exact containsSeq_nil b
  | cons c cs ih =>
    simp only [containsSeq, Bool.or_eq_true] at h
    rcases h with h | h
    · simp only [List.cons_append, containsSeq, Bool.or_eq_true]
      exact Or.inl (isPrefixOf_ext _ _ _ h)
    · simp only [List.cons_append, containsSeq, Bool.or_eq_true]
      exact Or.inr (ih h)

/-! ## Claim theorems -/

/-- C1: dispatch is literal prefix matching evaluated in the fixed order
POST /users, GET /users/, GET /users, DELETE /users/, first match wins
(equivalently, a first-match lookup in the ordered route table), and a
text matching none of the four route heads gets the 404 status line with
body "Not Found". -/
theorem dispatch_is_ordered_literal_matching (r : List Char) (co eo qo : Bool) (db : Db) :
    route r = routeSpec r
    ∧ ((("POST /users").toList).isPrefixOf r = true →
        handle_client r co eo qo db = handle_post_request r co eo db)
    ∧ ((("POST /users").toList).isPrefixOf r = false →
       (("GET /users/").toList).isPrefixOf r = true →
        handle_client r co eo qo db = some (handle_get_request r co db.rows, db))
    ∧ ((("POST /users").toList).isPrefixOf r = false →
       (("GET /users/").toList).isPrefixOf r = false →
       (("GET /users").toList).isPrefixOf r = true →
        handle_client r co eo qo db =
          (handle_get_all_request r co qo db.rows).map (fun p => (p, db)))
    ∧ ((("POST /users").toList).isPrefixOf r = false →
       (("GET /users/").toList).isPrefixOf r = false →
       (("GET /users").toList).isPrefixOf r = false →
       (("DELETE /users/").toList).isPrefixOf r = true →
        handle_client r co eo qo db =
          (handle_delete_request r co eo db.rows).map (fun p => (p.1, ⟨p.2, db.nextId⟩)))
    ∧ ((("POST /users").toList).isPrefixOf r = false →
       (("GET /users/").toList).isPrefixOf r = false →
       (("GET /users").toList).isPrefixOf r = false →
       (("DELETE /users/").toList).isPrefixOf r = false →
        handle_client r co eo qo db = some ((NOT_FOUND, ("Not Found")), db)) := by
  cases h1 : (("POST /users").toList).isPrefixOf r <;>
    cases h2 : (("GET /users/").toList).isPrefixOf r <;>
      cases h3 : (("GET /users").toList).isPrefixOf r <;>
        cases h4 : (("DELETE /users/").toList).isPrefixOf r <;>
          (simp only [route, routeSpec, routeTable, List.find?, handle_client, h1, h2, h3, h4];
           simp)

/-- C1 witness: an unmatched request text gets the 404 response. -/
theorem dispatch_is_ordered_literal_matching_witness :
    handle_client (("PUT /users/1 HTTP/1.1").toList) true true true ⟨[], 1⟩
      = some ((NOT_FOUND, ("Not Found")), ⟨[], 1⟩) :=
  (dispatch_is_ordered_literal_matching (("PUT /users/1 HTTP/1.1").toList) true true true
    ⟨[], 1⟩).2.2.2.2.2 (by decide) (by decide) (by decide) (by decide)

/-- C10: prefix dispatch over-matches: any text extending a route head
with non-slash extra characters is still dispatched to that route (for
GET /users the extra part must not start with a slash, or the more
specific GET /users/ route fires), and 404 happens exactly when none of
the four route heads is a literal prefix of the text. -/
theorem route_prefix_overmatch (rest r : List Char) :
    route ((("POST /users").toList) ++ rest) = .post
    ∧ (rest.head? ≠ some '/' → route ((("GET /users").toList) ++ rest) = .getAll)
    ∧ route ((("GET /users/").toList) ++ rest) = .getOne
    ∧ route ((("DELETE /users/").toList) ++ rest) = .del
    ∧ route (("GET /usersextra HTTP/1.1").toList) = .getAll
    ∧ route (("POST /usersX").toList) = .post
    ∧ (route r = .notFound ↔
        ((("POST /users").toList).isPrefixOf r = false
         ∧ (("GET /users/").toList).isPrefixOf r = false
         ∧ (("GET /users").toList).isPrefixOf r = false
         ∧ (("DELETE /users/").toList).isPrefixOf r = false)) := by
  have hP : ("POST /users").toList = 'P' :: ("OST /users").toList := by decide
  have hG : ("GET /users").toList = 'G' :: ("ET /users").toList := by decide
  have hGs : ("GET /users/").toList = ("GET /users").toList ++ ['/'] := by decide
  have hD : ("DELETE /users/").toList = 'D' :: ("ELETE /users/").toList := by decide
  refine ⟨?_, ?_, ?_, ?_, by decide, by decide, ?_⟩
  · simp [route, isPrefixOf_append_self]
  · intro hr
    have hp1 : (("POST /users").toList).isPrefixOf ((("GET /users").toList) ++ rest) = false := by
      rw [hP, hG, List.cons_append]
      exact isPrefixOf_cons_ne _ _ _ _ (by decide)
    have hp2 : (("GET /users/").toList).isPrefixOf ((("GET /users").toList) ++ rest) = false := by
      rw [hGs, isPrefixOf_append_both]
      cases rest with
      | nil => simp [List.isPrefixOf]
      | cons c t =>
        have hc : ('/' : Char) ≠ c := by
          intro he
          exact hr (by simp [← he])
        exact isPrefixOf_cons_ne _ _ _ _ hc
    have h3 : ¬ (['/'] <+: rest) := by
      cases rest with
      | nil => simp
      | cons c t =>
        intro hpre
        rcases List.cons_prefix_cons.mp hpre with ⟨he, _⟩
        exact hr (by simp [← he])
    simp [route, hp1, hp2, isPrefixOf_append_self, h3]
  · have hp1 : (("POST /users").toList).isPrefixOf ((("GET /users/").toList) ++ rest) = false := by
      rw [hP, hGs, hG, List.cons_append, List.cons_append]
      exact isPrefixOf_cons_ne _ _ _ _ (by decide)
    simp [route, hp1, isPrefixOf_append_self]
  · have hp1 : (("POST /users").toList).isPrefixOf ((("DELETE /users/").toList) ++ rest) = false := by
      rw [hP, hD, List.cons_append]
      exact isPrefixOf_cons_ne _ _ _ _ (by decide)
    have hp2 : (("GET /users/").toList).isPrefixOf ((("DELETE /users/").toList) ++ rest) = false := by
      rw [hGs, hG, hD, List.cons_append, List.cons_append]
      exact isPrefixOf_cons_ne _ _ _ _ (by decide)
    have hp3 : (("GET /users").toList).isPrefixOf ((("DELETE /users/").toList) ++ rest) = false := by
      rw [hG, hD, List.cons_append]
      exact isPrefixOf_cons_ne _ _ _ _ (by decide)
    simp [route, hp1, hp2, hp3, isPrefixOf_append_self]
  · cases h1 : (("POST /users").toList).isPrefixOf r <;>
      cases h2 : (("GET /users/").toList).isPrefixOf r <;>
        cases h3 : (("GET /users").toList).isPrefixOf r <;>
          cases h4 : (("DELETE /users/").toList).isPrefixOf r <;>
            (simp only [route, h1, h2, h3, h4]; simp)

/-- C10 witness: a non-slash extension of GET /users is dispatched to
the GetAll route. -/
theorem route_prefix_overmatch_witness :
    route ((("GET /users").toList) ++ (("X HTTP/1.1").toList)) = .getAll :=
  (route_prefix_overmatch (("X HTTP/1.1").toList) []).2.1 (by decide)

/-- C2: the GetOne handler: unparsable id gives 500 "Invalid ID", then a
failed connect gives 500 "Database error", then a match count other than
one gives 404 "User not found", and exactly one matching row gives 200
with the row serialized as a JSON object whose fields appear in the
order id, name, email. -/
theorem get_one_handler_cases (r : List Char) (co : Bool) (rows : List Row) :
    (parseI32 (get_id r) = none →
      handle_get_request r co rows = (INTERNAL_SERVER_ERROR, ("Invalid ID")))
    ∧ (∀ n, parseI32 (get_id r) = some n → co = false →
      handle_get_request r co rows = (INTERNAL_SERVER_ERROR, ("Database error")))
    ∧ (∀ n, parseI32 (get_id r) = some n → co = true →
      (rows.filter (fun row => row.id == n)).length ≠ 1 →
      handle_get_request r co rows = (NOT_FOUND, ("User not found")))
    ∧ (∀ n row, parseI32 (get_id r) = some n → co = true →
      rows.filter (fun row => row.id == n) = [row] →
      handle_get_request r co rows =
        (OK_RESPONSE, String.mk ((("\x7b\"id\":").toList ++ renderInt row.id
          ++ (",\"name\":").toList ++ jstrChars row.name
          ++ (",\"email\":").toList ++ jstrChars row.email) ++ ['\x7d']))) := by
  refine ⟨?_, ?_, ?_, ?_⟩
  · intro h
    simp [handle_get_request, h]
  · intro n h hco
    subst hco
    simp [handle_get_request, h]
  · intro n h hco hlen
    subst hco
    simp only [handle_get_request, h]
    rcases hf : rows.filter (fun row => row.id == n) with _ | ⟨a, _ | ⟨b, t⟩⟩
    · simp [hf]
    · exact absurd (by rw [hf]; rfl) hlen
    · simp [hf]
  · intro n row h hco hf
    subst hco
    simp [handle_get_request, h, hf, userToJsonChars, rowToUser]

/-- C2 witness: a request for an existing id with a singleton match. -/
theorem get_one_handler_cases_witness :
    parseI32 (get_id (("GET /users/1 HTTP/1.1").toList)) = some 1
    ∧ ([(⟨1, ("a"), ("b")⟩ : Row)].filter (fun row => row.id == (1 : Int))) = [⟨1, ("a"), ("b")⟩]
    ∧ handle_get_request (("GET /users/1 HTTP/1.1").toList) true [⟨1, ("a"), ("b")⟩] =
        (OK_RESPONSE, String.mk ((("\x7b\"id\":").toList ++ renderInt (1 : Int)
          ++ (",\"name\":").toList ++ jstrChars ("a")
          ++ (",\"email\":").toList ++ jstrChars ("b")) ++ ['\x7d'])) :=
  ⟨by decide, by decide,
   (get_one_handler_cases (("GET /users/1 HTTP/1.1").toList) true [⟨1, ("a"), ("b")⟩]).2.2.2
     1 ⟨1, ("a"), ("b")⟩ (by decide) rfl (by decide)⟩

/-- C3: the Delete handler, when the id parses: a failed connect gives
500 "Database error"; with a successful execute, zero affected rows give
404 "User not found" and one or more affected rows give 200
"User Deleted". -/
theorem delete_handler_cases (r : List Char) (eo : Bool) (rows : List Row) :
    (∀ n, parseI32 (get_id r) = some n →
      handle_delete_request r false eo rows =
        some ((INTERNAL_SERVER_ERROR, ("Database error")), rows))
    ∧ (∀ n, parseI32 (get_id r) = some n →
      (rows.filter (fun row => row.id == n)).length = 0 →
      handle_delete_request r true true rows = some ((NOT_FOUND, ("User not found")), rows))
    ∧ (∀ n, parseI32 (get_id r) = some n →
      1 ≤ (rows.filter (fun row => row.id == n)).length →
      handle_delete_request r true true rows =
        some ((OK_RESPONSE, ("User Deleted")), rows.filter (fun row => !(row.id == n)))) := by
  refine ⟨?_, ?_, ?_⟩
  · intro n h
    simp [handle_delete_request, h]
  · intro n h hlen
    simp [handle_delete_request, h, hlen]
  · intro n h hlen
    have hz : (rows.filter (fun row => row.id == n)).length ≠ 0 := by omega
    simp [handle_delete_request, h, hz]

/-- C3 witness: deleting an existing id affects one row. -/
theorem delete_handler_cases_witness :
    parseI32 (get_id (("DELETE /users/1 HTTP/1.1").toList)) = some 1
    ∧ 1 ≤ (([(⟨1, ("a"), ("b")⟩ : Row)]).filter (fun row => row.id == (1 : Int))).length
    ∧ handle_delete_request (("DELETE /users/1 HTTP/1.1").toList) true true [⟨1, ("a"), ("b")⟩] =
        some ((OK_RESPONSE, ("User Deleted")),
          ([(⟨1, ("a"), ("b")⟩ : Row)]).filter (fun row => !(row.id == (1 : Int)))) :=
  ⟨by decide, by decide,
   (delete_handler_cases (("DELETE /users/1 HTTP/1.1").toList) true [⟨1, ("a"), ("b")⟩]).2.2
     1 (by decide) (by decide)⟩

/-- C4: the Create handler: a body that fails to parse as JSON and a
failed database connect both give the same conflated 500 "Error"; when
both succeed (and the insert executes), a row with only the name and
email of the parsed user is appended, the id being assigned by the
store, and the response is the constant 200 "User Created" that does not
carry the assigned id. -/
theorem create_handler_cases (r : List Char) (co eo : Bool) (db : Db) :
    (get_user_from_request_body r = none →
      handle_post_request r co eo db = some ((INTERNAL_SERVER_ERROR, ("Error")), db))
    ∧ (handle_post_request r false eo db = some ((INTERNAL_SERVER_ERROR, ("Error")), db))
    ∧ (∀ u, get_user_from_request_body r = some u → co = true → eo = true →
      handle_post_request r co eo db =
        some ((OK_RESPONSE, ("User Created")),
          ⟨db.rows ++ [⟨db.nextId, u.name, u.email⟩], db.nextId + 1⟩)) := by
  refine ⟨?_, ?_, ?_⟩
  · intro h
    simp [handle_post_request, h]
  · rcases h : get_user_from_request_body r with _ | u <;>
      simp [handle_post_request, h]
  · intro u h hco heo
    subst hco
    subst heo
    simp [handle_post_request, h, insertUser]

/-- C4 witness: a parseable body with a working connection inserts the
posted name and email. -/
theorem create_handler_cases_witness :
    get_user_from_request_body
        (("POST /users HTTP/1.1\r\nHost: x\r\n\r\n\x7b\"name\":\"a\",\"email\":\"b\"\x7d").toList)
      = some ⟨none, ("a"), ("b")⟩
    ∧ handle_post_request
        (("POST /users HTTP/1.1\r\nHost: x\r\n\r\n\x7b\"name\":\"a\",\"email\":\"b\"\x7d").toList)
        true true ⟨[], 1⟩
      = some ((OK_RESPONSE, ("User Created")), ⟨[⟨1, ("a"), ("b")⟩], 2⟩) :=
  ⟨by decide,
   (create_handler_cases
     (("POST /users HTTP/1.1\r\nHost: x\r\n\r\n\x7b\"name\":\"a\",\"email\":\"b\"\x7d").toList)
     true true ⟨[], 1⟩).2.2 ⟨none, ("a"), ("b")⟩ (by decide) rfl rfl⟩

theorem wordsA_headD (f : Nat) (l : List Char) (h : l.length ≤ f) :
    (wordsA f l).headD [] =
      (l.dropWhile isRustWhitespace).takeWhile (fun x => !isRustWhitespace x) := by
  induction f generalizing l with
  | zero =>
    cases l with
    | nil => simp [wordsA]
    | cons c cs => simp at h
  | succ f ih =>
    cases l with
    | nil => simp [wordsA]
    | cons c cs =>
      by_cases hw : isRustWhitespace c
      · rw [wordsA, if_pos hw, List.dropWhile_cons_of_pos hw]
        exact ih cs (by simpa using h)
      · have hw' : isRustWhitespace c = false := by simpa using hw
        rw [wordsA, if_neg hw, List.dropWhile_cons_of_neg hw]
        simp [List.takeWhile_cons, hw']

/-- C7 counterexample: for the request text "GET /users/ 5" the third
slash token is " 5"; truncation at the first whitespace character would
give the empty string, but the code extracts "5", which even parses. -/
theorem get_id_truncation_false :
    get_id (("GET /users/ 5").toList) ≠ specIdTrunc (("GET /users/ 5").toList)
    ∧ get_id (("GET /users/ 5").toList) = ("5").toList
    ∧ specIdTrunc (("GET /users/ 5").toList) = []
    ∧ parseI32 (get_id (("GET /users/ 5").toList)) = some 5
    ∧ parseI32 (specIdTrunc (("GET /users/ 5").toList)) = none := by decide

/-- C7 amended: the identifier is the first whitespace-delimited word of
the third slash token — leading whitespace skipped, then truncated at
the next whitespace; an absent token yields the empty string, which
fails integer parsing. -/
theorem get_id_amended (r : List Char) :
    get_id r = (((splitSlash r).getD 2 []).dropWhile isRustWhitespace).takeWhile
        (fun x => !isRustWhitespace x)
    ∧ ((splitSlash r).length ≤ 2 → get_id r = [])
    ∧ parseI32 [] = none := by
  refine ⟨?_, ?_, by decide⟩
  · exact wordsA_headD _ _ (Nat.le_refl _)
  · intro h
    have he : (splitSlash r).getD 2 [] = [] := List.getD_eq_default _ _ h
    simp only [get_id]
    rw [he]
    simp [wordsOf, wordsA]

/-- C7 witness: a request line without a third slash token yields the
empty identifier. -/
theorem get_id_amended_witness :
    (splitSlash (("GET /x").toList)).length ≤ 2 ∧ get_id (("GET /x").toList) = [] :=
  ⟨by decide, (get_id_amended (("GET /x").toList)).2.1 (by decide)⟩

/-- C6 counterexample: the read-path query of the GetAll handler is also
unwrapped: with a working connection and a failing query the handler
aborts instead of mapping the store error to a status and body. -/
theorem getall_query_unwrap_aborts :
    handle_get_all_request (("GET /users HTTP/1.1").toList) true false [] = none
    ∧ handle_client (("GET /users HTTP/1.1").toList) true true false ⟨[], 1⟩ = none := by decide

/-- C6 amended: the handlers abort (unwrap a failed result) exactly on
the write-path execute of Create and Delete and on the read-path query
of GetAll; every other store or parse error becomes a status+body pair
(the GetOne handler is total). -/
theorem unwrap_abort_characterization (r : List Char) (co eo qo : Bool) (db : Db)
    (rows : List Row) :
    (handle_post_request r co eo db = none ↔
      ((get_user_from_request_body r).isSome = true ∧ co = true ∧ eo = false))
    ∧ (handle_delete_request r co eo rows = none ↔
      ((parseI32 (get_id r)).isSome = true ∧ co = true ∧ eo = false))
    ∧ (handle_get_all_request r co qo rows = none ↔ (co = true ∧ qo = false)) := by
  refine ⟨?_, ?_, ?_⟩
  · rcases h : get_user_from_request_body r with _ | u <;> cases co <;> cases eo <;>
      simp [handle_post_request, h]
  · rcases h : parseI32 (get_id r) with _ | n
    · cases co <;> cases eo <;> simp [handle_delete_request, h]
    · cases co
      · cases eo <;> simp [handle_delete_request, h]
      · cases eo
        · simp [handle_delete_request, h]
        · simp [handle_delete_request, h]
          split <;> simp
  · cases co <;> cases qo <;> simp [handle_get_all_request]

/-- C6 witness: a Create request whose body parses and whose connection
works aborts when the INSERT execute fails. -/
theorem unwrap_abort_characterization_witness :
    handle_post_request
      (("POST /users HTTP/1.1\r\n\r\n\x7b\"name\":\"a\",\"email\":\"b\"\x7d").toList)
      true false ⟨[], 1⟩ = none :=
  (unwrap_abort_characterization
    (("POST /users HTTP/1.1\r\n\r\n\x7b\"name\":\"a\",\"email\":\"b\"\x7d").toList)
    true false true ⟨[], 1⟩ []).1.mpr ⟨by decide, rfl, rfl⟩

theorem get_status_mem (r : List Char) (co : Bool) (rows : List Row) :
    (handle_get_request r co rows).1 = OK_RESPONSE
    ∨ (handle_get_request r co rows).1 = NOT_FOUND
    ∨ (handle_get_request r co rows).1 = INTERNAL_SERVER_ERROR := by
  rcases h : parseI32 (get_id r) with _ | n
  · simp [handle_get_request, h]
  · cases co
    · simp [handle_get_request, h]
    · rcases hf : rows.filter (fun row => row.id == n) with _ | ⟨a, _ | ⟨b, t⟩⟩ <;>
        simp [handle_get_request, h, hf]

theorem status_line_mem (r : List Char) (co eo qo : Bool) (db : Db) :
    ∀ p, handle_client r co eo qo db = some p →
      (p.1.1 = OK_RESPONSE ∨ p.1.1 = NOT_FOUND ∨ p.1.1 = INTERNAL_SERVER_ERROR) := by
  intro p hp
  cases hr : route r <;> simp only [handle_client, hr] at hp
  case post =>
    rcases hu : get_user_from_request_body r with _ | u
    · simp [handle_post_request, hu] at hp
      subst hp
      simp [OK_RESPONSE, NOT_FOUND, INTERNAL_SERVER_ERROR]
    · cases co
      · simp [handle_post_request, hu] at hp
        subst hp
        simp [OK_RESPONSE, NOT_FOUND, INTERNAL_SERVER_ERROR]
      · cases eo
        · simp [handle_post_request, hu] at hp
        · simp [handle_post_request, hu] at hp
          subst hp
          simp [OK_RESPONSE, NOT_FOUND, INTERNAL_SERVER_ERROR]
  case getOne =>
    have hq := get_status_mem r co db.rows
    simp only [Option.some.injEq] at hp
    subst hp
    simpa using hq
  case getAll =>
    cases co
    · simp [handle_get_all_request] at hp
      subst hp
      simp [OK_RESPONSE, NOT_FOUND, INTERNAL_SERVER_ERROR]
    · cases qo
      · simp [handle_get_all_request] at hp
      · simp [handle_get_all_request] at hp
        subst hp
        simp [OK_RESPONSE, NOT_FOUND, INTERNAL_SERVER_ERROR]
  case del =>
    rcases hn : parseI32 (get_id r) with _ | n
    · simp [handle_delete_request, hn] at hp
      subst hp
      simp [OK_RESPONSE, NOT_FOUND, INTERNAL_SERVER_ERROR]
    · cases co
      · simp [handle_delete_request, hn] at hp
        subst hp
        simp [OK_RESPONSE, NOT_FOUND, INTERNAL_SERVER_ERROR]
      · cases eo
        · simp [handle_delete_request, hn] at hp
        · simp only [handle_delete_request, hn, if_true] at hp
          split at hp <;> simp at hp <;> (subst hp; simp [OK_RESPONSE, NOT_FOUND, INTERNAL_SERVER_ERROR])
  case notFound =>
    simp only [Option.some.injEq] at hp
    subst hp
    simp [OK_RESPONSE, NOT_FOUND, INTERNAL_SERVER_ERROR]

/-- C8 counterexample: the 404 response for an unmatched request carries
no Content-Type header: only the 200 status line contains it. -/
theorem not_found_response_lacks_content_type :
    handle_client (("PUT /x").toList) true true true ⟨[], 1⟩
      = some ((NOT_FOUND, ("Not Found")), ⟨[], 1⟩)
    ∧ containsSeq ctHeader ((responseText (NOT_FOUND, ("Not Found"))).toList) = false := by
  decide

/-- C8 amended: every status line the server writes is one of the three
response constants; exactly the 200 constant contains the header
Content-Type: application/json (also over plain-text bodies such as
"User Created"), while the 404 and 500 constants do not, so non-200
responses lack the header. -/
theorem content_type_only_on_ok (r : List Char) (co eo qo : Bool) (db : Db) :
    (∀ p, handle_client r co eo qo db = some p →
      (p.1.1 = OK_RESPONSE ∨ p.1.1 = NOT_FOUND ∨ p.1.1 = INTERNAL_SERVER_ERROR))
    ∧ (∀ p, handle_client r co eo qo db = some p → p.1.1 = OK_RESPONSE →
        containsSeq ctHeader ((responseText p.1).toList) = true)
    ∧ (∀ p, handle_client r co eo qo db = some p → p.1.1 ≠ OK_RESPONSE →
        containsSeq ctHeader ((p.1.1).toList) = false)
    ∧ containsSeq ctHeader ((OK_RESPONSE).toList) = true
    ∧ containsSeq ctHeader ((NOT_FOUND).toList) = false
    ∧ containsSeq ctHeader ((INTERNAL_SERVER_ERROR).toList) = false := by
  refine ⟨status_line_mem r co eo qo db, ?_, ?_, by decide, by decide, by decide⟩
  · intro p hp hok
    have ht : (responseText p.1).toList = ((p.1.1).toList) ++ ((p.1.2).toList) := by
      simp [responseText, String.toList, String.data_append]
    rw [ht, hok]
    exact containsSeq_append_left _ _ _ (by decide)
  · intro p hp hne
    rcases status_line_mem r co eo qo db p hp with h | h | h
    · exact absurd h hne
    · rw [h]
      decide
    · rw [h]
      decide

/-- C8 witness: the empty-table GetAll response is a 200 whose text
contains the Content-Type header. -/
theorem content_type_only_on_ok_witness :
    containsSeq ctHeader ((responseText (OK_RESPONSE, ("[]"))).toList) = true :=
  (content_type_only_on_ok (("GET /users HTTP/1.1").toList) true true true ⟨[], 1⟩).2.1
    ((OK_RESPONSE, ("[]")), ⟨[], 1⟩) (by decide) rfl

theorem splitA_no_sep (f : Nat) (l : List Char) (hf : l.length ≤ f)
    (h : containsSeq sepCRLF2 l = false) : splitA f l = [l] := by
  induction f generalizing l with
  | zero =>
    cases l with
    | nil => rfl
    | cons c cs => simp at hf
  | succ f ih =>
    cases l with
    | nil => rfl
    | cons c cs =>
      have hh : sepCRLF2.isPrefixOf (c :: cs) = false ∧ containsSeq sepCRLF2 cs = false := by
        have := h
        simp only [containsSeq, Bool.or_eq_false_iff] at this
        exact this
      rw [splitA, if_neg (by simp [hh.1]), ih cs (by simpa using hf) hh.2]

theorem sep_not_prefix_mid (c : Char) (hd body : List Char)
    (h1 : containsSeq sepCRLF2 (c :: hd) = false)
    (h2 : (['\r', '\n'] : List Char).isSuffixOf (c :: hd) = false) :
    sepCRLF2.isPrefixOf (c :: (hd ++ (sepCRLF2 ++ body))) = false := by
  rw [isPrefixOf_false_iff]
  intro hpre
  rcases hd with _ | ⟨d, _ | ⟨e, _ | ⟨g, hd'⟩⟩⟩
  · simp [sepCRLF2, List.cons_prefix_cons] at hpre
  · simp only [sepCRLF2, List.cons_append, List.nil_append, List.cons_prefix_cons] at hpre
    obtain ⟨hc, hdd, -⟩ := hpre
    subst hc
    subst hdd
    exact absurd h2 (by decide)
  · simp [sepCRLF2, List.cons_prefix_cons] at hpre
  · simp only [sepCRLF2, List.cons_append, List.cons_prefix_cons] at hpre
    obtain ⟨hc, hdd, he, hg, -⟩ := hpre
    subst hc
    subst hdd
    subst he
    subst hg
    have ht : containsSeq sepCRLF2 ('\r' :: '\n' :: '\r' :: '\n' :: hd') = true := by
      simp [containsSeq, sepCRLF2, List.isPrefixOf]
    rw [h1] at ht
    exact absurd ht (by decide)

theorem splitA_boundary (hd body : List Char) (f : Nat)
    (hf : (hd ++ (sepCRLF2 ++ body)).length ≤ f)
    (h1 : containsSeq sepCRLF2 hd = false)
    (h2 : (['\r', '\n'] : List Char).isSuffixOf hd = false)
    (h3 : containsSeq sepCRLF2 body = false) :
    splitA f (hd ++ (sepCRLF2 ++ body)) = [hd, body] := by
  induction hd generalizing f with
  | nil =>
    cases f with
    | zero => simp [sepCRLF2] at hf
    | succ f =>
      show splitA (f + 1) ('\r' :: ('\n' :: '\r' :: '\n' :: body)) = [[], body]
      have hp : sepCRLF2.isPrefixOf ('\r' :: '\n' :: '\r' :: '\n' :: body) = true := by
        simp [sepCRLF2, List.isPrefixOf]
      rw [splitA, if_pos (by simp [hp])]
      have hb : splitA f body = [body] := by
        apply splitA_no_sep f body _ h3
        simp [sepCRLF2] at hf
        omega
      simp [hb]
  | cons c hd ih =>
    cases f with
    | zero => simp at hf
    | succ f =>
      have h1' : containsSeq sepCRLF2 hd = false := by
        have := h1
        simp only [containsSeq, Bool.or_eq_false_iff] at this
        exact this.2
      have h2' : (['\r', '\n'] : List Char).isSuffixOf hd = false := by
        cases hs : (['\r', '\n'] : List Char).isSuffixOf hd
        · rfl
        · have hsf := (List.isSuffixOf_iff_suffix.mp hs).trans (List.suffix_cons c hd)
          rw [← List.isSuffixOf_iff_suffix] at hsf
          rw [h2] at hsf
          exact absurd hsf (by decide)
      have hnp := sep_not_prefix_mid c hd body h1 h2
      rw [List.cons_append, splitA, if_neg (by simp [hnp]),
        ih f (by simpa using hf) h1' h2']

/-- C5 counterexample: a request text with two blank-line separators: the
substring after the first one is "x\r\n\r\n..." and does not parse, while
the code parses the part after the last separator, which succeeds. -/
theorem create_body_after_first_blank_line_false :
    (splitCRLF2
        (("POST /users HTTP/1.1\r\n\r\nx\r\n\r\n\x7b\"name\":\"a\",\"email\":\"b\"\x7d").toList)).getLastD []
      ≠ afterFirstCRLF2
        (("POST /users HTTP/1.1\r\n\r\nx\r\n\r\n\x7b\"name\":\"a\",\"email\":\"b\"\x7d").toList)
    ∧ get_user_from_request_body
        (("POST /users HTTP/1.1\r\n\r\nx\r\n\r\n\x7b\"name\":\"a\",\"email\":\"b\"\x7d").toList)
      = some ⟨none, ("a"), ("b")⟩
    ∧ userFromStr (afterFirstCRLF2
        (("POST /users HTTP/1.1\r\n\r\nx\r\n\r\n\x7b\"name\":\"a\",\"email\":\"b\"\x7d").toList))
      = none := by
  decide

/-- C5 amended: the Create handler parses exactly the last field of
splitting the request text on "\r\n\r\n" — for a text of the shape
head ++ "\r\n\r\n" ++ body whose head contains no separator and does not
end in "\r\n" and whose body contains no separator, that field is body —
and the id of the parsed user is ignored by the insert, which uses only
name and email. -/
theorem create_body_extraction_amended (r hd body : List Char) :
    (get_user_from_request_body r = userFromStr ((splitCRLF2 r).getLastD []))
    ∧ (containsSeq sepCRLF2 hd = false →
       (['\r', '\n'] : List Char).isSuffixOf hd = false →
       containsSeq sepCRLF2 body = false →
       (splitCRLF2 (hd ++ (sepCRLF2 ++ body))).getLastD [] = body)
    ∧ (∀ (db : Db) (u : User) (oi : Option Int),
        insertUser db ⟨oi, u.name, u.email⟩ = insertUser db u) := by
  refine ⟨rfl, ?_, ?_⟩
  · intro h1 h2 h3
    rw [splitCRLF2, splitA_boundary hd body _ (Nat.le_refl _) h1 h2 h3]
    rfl
  · intro db u oi
    rfl

/-- C5 witness: a well-formed request head and a separator-free JSON
body decompose as expected. -/
theorem create_body_extraction_amended_witness :
    (splitCRLF2 ((("POST /users HTTP/1.1").toList)
        ++ (sepCRLF2 ++ (("\x7b\"name\":\"a\"\x7d").toList)))).getLastD []
      = ("\x7b\"name\":\"a\"\x7d").toList :=
  (create_body_extraction_amended [] (("POST /users HTTP/1.1").toList)
    (("\x7b\"name\":\"a\"\x7d").toList)).2.1 (by decide) (by decide) (by decide)

/-! ## Round-trip infrastructure -/

theorem toNat_bounds_of_isDigit (c : Char) (h : c.isDigit = true) :
    48 ≤ c.toNat ∧ c.toNat ≤ 57 := by
  simp only [Char.isDigit, Bool.and_eq_true, decide_eq_true_eq, ge_iff_le] at h
  exact ⟨UInt32.le_toNat_of_le (by decide) h.1, UInt32.toNat_le_of_le (by decide) h.2⟩

theorem isJsonWs_false_of_ge (c : Char) (h : 33 ≤ c.toNat) : isJsonWs c = false := by
  simp only [isJsonWs, Bool.or_eq_false_iff, decide_eq_false_iff_not]
  refine ⟨⟨⟨fun he => ?_, fun he => ?_⟩, fun he => ?_⟩, fun he => ?_⟩ <;>
    (rw [he] at h; exact absurd h (by decide))

theorem isDigit_digitChar (d : Nat) (h : d < 10) : (digitChar d).isDigit = true := by
  interval_cases d <;> decide

theorem toNat_digitChar (d : Nat) (h : d < 10) : (digitChar d).toNat = 48 + d := by
  interval_cases d <;> decide

theorem hexVal_hexDigitChar (d : Nat) (h : d < 16) : hexVal (hexDigitChar d) = some d := by
  interval_cases d <;> decide

theorem digitChar_ne_zero_char (d : Nat) (h1 : 0 < d) (h2 : d < 10) : digitChar d ≠ '0' := by
  interval_cases d <;> decide

theorem natDigitsRevA_fuel (f : Nat) :
    ∀ f' n, n ≤ f → n ≤ f' → natDigitsRevA f n = natDigitsRevA f' n := by
  induction f with
  | zero =>
    intro f' n h h'
    have : n = 0 := Nat.le_zero.mp h
    subst this
    cases f' <;> simp [natDigitsRevA]
  | succ f ih =>
    intro f' n h h'
    cases n with
    | zero => cases f' <;> simp [natDigitsRevA]
    | succ m =>
      cases f' with
      | zero => omega
      | succ f'' =>
        simp only [natDigitsRevA]
        have hdiv : (m + 1) / 10 < m + 1 := Nat.div_lt_self (by omega) (by omega)
        rw [ih f'' ((m + 1) / 10) (by omega) (by omega)]

theorem natDigitsRevA_succ_eq (n : Nat) (h0 : 0 < n) :
    natDigitsRevA n n = digitChar (n % 10) :: natDigitsRevA (n / 10) (n / 10) := by
  cases n with
  | zero => omega
  | succ m =>
    simp only [natDigitsRevA]
    have hdiv : (m + 1) / 10 < m + 1 := Nat.div_lt_self (by omega) (by omega)
    rw [natDigitsRevA_fuel m ((m + 1) / 10) ((m + 1) / 10) (by omega) (by omega)]

theorem natDigitsRevA_digits (n : Nat) : ∀ c ∈ natDigitsRevA n n, c.isDigit = true := by
  induction n using Nat.strong_induction_on with
  | _ n ih =>
    cases n with
    | zero => simp [natDigitsRevA]
    | succ m =>
      rw [natDigitsRevA_succ_eq (m + 1) (by omega)]
      intro c hc
      rcases List.mem_cons.mp hc with hc | hc
      · subst hc
        exact isDigit_digitChar _ (Nat.mod_lt _ (by omega))
      · exact ih ((m + 1) / 10) (Nat.div_lt_self (by omega) (by omega)) c hc

theorem renderNat_digits (m : Nat) : ∀ c ∈ renderNat m, c.isDigit = true := by
  by_cases hm : m = 0
  · subst hm
    intro c hc
    simp [renderNat] at hc
    subst hc
    decide
  · intro c hc
    rw [renderNat, if_neg hm] at hc
    exact natDigitsRevA_digits m c (List.mem_reverse.mp hc)

theorem renderNat_ne_nil (m : Nat) : renderNat m ≠ [] := by
  by_cases hm : m = 0
  · subst hm
    simp [renderNat]
  · rw [renderNat, if_neg hm]
    rw [natDigitsRevA_succ_eq m (by omega)]
    simp

theorem foldl_digits (m : Nat) :
    ∀ acc, (natDigitsRevA m m).reverse.foldl (fun a c => a * 10 + (c.toNat - 48)) acc
      = acc * 10 ^ (natDigitsRevA m m).length + m := by
  induction m using Nat.strong_induction_on with
  | _ m ih =>
    intro acc
    cases m with
    | zero => simp [natDigitsRevA]
    | succ k =>
      rw [natDigitsRevA_succ_eq (k + 1) (by omega)]
      have hdiv : (k + 1) / 10 < k + 1 := Nat.div_lt_self (by omega) (by omega)
      simp only [List.reverse_cons, List.foldl_append, List.length_cons]
      rw [ih ((k + 1) / 10) hdiv acc]
      simp only [List.foldl_cons, List.foldl_nil]
      rw [toNat_digitChar _ (Nat.mod_lt _ (by omega))]
      have hdm : 10 * ((k + 1) / 10) + (k + 1) % 10 = k + 1 := Nat.div_add_mod (k + 1) 10
      rw [pow_succ]
      ring_nf
      omega

theorem digitsVal_renderNat (m : Nat) : digitsVal (renderNat m) = m := by
  by_cases hm : m = 0
  · subst hm
    decide
  · rw [renderNat, if_neg hm]
    have := foldl_digits m 0
    simpa [digitsVal] using this

theorem natDigitsRevA_getLast (m : Nat) (h : 0 < m) :
    ∃ d, 0 < d ∧ d < 10 ∧ (natDigitsRevA m m).getLast? = some (digitChar d) := by
  induction m using Nat.strong_induction_on with
  | _ m ih =>
    by_cases hm : m < 10
    · refine ⟨m, h, hm, ?_⟩
      rw [natDigitsRevA_succ_eq m h]
      have h10 : m / 10 = 0 := Nat.div_eq_of_lt hm
      rw [h10]
      simp [natDigitsRevA, Nat.mod_eq_of_lt hm]
    · have hdp : 0 < m / 10 := Nat.div_pos (by omega) (by omega)
      have hdl : m / 10 < m := Nat.div_lt_self h (by omega)
      obtain ⟨d, hd0, hd10, hlast⟩ := ih (m / 10) hdl hdp
      rcases htail : natDigitsRevA (m / 10) (m / 10) with _ | ⟨t0, ts⟩
      · rw [htail] at hlast
        simp at hlast
      · refine ⟨d, hd0, hd10, ?_⟩
        rw [natDigitsRevA_succ_eq m h, htail, List.getLast?_cons_cons, ← htail, hlast]

theorem renderNat_head_big (m : Nat) (h : 10 ≤ m) :
    ∃ d, 0 < d ∧ d < 10 ∧ (renderNat m).head? = some (digitChar d) := by
  obtain ⟨d, hd0, hd10, hlast⟩ := natDigitsRevA_getLast m (by omega)
  refine ⟨d, hd0, hd10, ?_⟩
  rw [renderNat, if_neg (by omega), List.head?_reverse, hlast]

theorem takeWhile_all_append (p : Char → Bool) (xs ys : List Char)
    (hall : ∀ c ∈ xs, p c = true) (hy : ∀ c, ys.head? = some c → p c = false) :
    (xs ++ ys).takeWhile p = xs ∧ (xs ++ ys).dropWhile p = ys := by
  induction xs with
  | nil =>
    cases ys with
    | nil => simp
    | cons c t => simp [List.takeWhile_cons, List.dropWhile_cons, hy c rfl]
  | cons x xs ih =>
    have hx : p x = true := hall x (List.mem_cons_self x xs)
    have ih2 := ih (fun c hc => hall c (List.mem_cons_of_mem x hc))
    simp [List.takeWhile_cons, List.dropWhile_cons, hx, ih2.1, ih2.2]

set_option maxHeartbeats 1600000 in
theorem parseStrA_round (s rest : List Char) :
    ∀ f, (escList s).length + 1 + rest.length ≤ f →
      parseStrA f (escList s ++ ('"' :: rest)) = some (s, rest) := by
  induction s with
  | nil =>
    intro f hf
    cases f with
    | zero => simp [escList] at hf
    | succ f => simp [escList, parseStrA]
  | cons c s ih =>
    intro f hf
    have hesc : escList (c :: s) = escapeChar c ++ escList s := by
      simp [escList]
    rw [hesc] at hf ⊢
    by_cases hq : c = '"'
    · subst hq
      have he : escapeChar '"' = ['\\', '"'] := rfl
      rw [he] at hf ⊢
      simp only [List.length_cons, List.length_append] at hf
      cases f with
      | zero => omega
      | succ f =>
        have harg := ih f (by omega)
        simp only [parseStrA, List.append_eq, List.cons_append, List.nil_append]
        simp [harg]
    · by_cases hbs : c = '\\'
      · subst hbs
        have he : escapeChar '\\' = ['\\', '\\'] := rfl
        rw [he] at hf ⊢
        simp only [List.length_cons, List.length_append] at hf
        cases f with
        | zero => omega
        | succ f =>
          have harg := ih f (by omega)
          simp only [parseStrA, List.append_eq, List.cons_append, List.nil_append]
          simp [harg]
      · by_cases hctl : c.toNat < 32
        · have hval : Char.ofNat c.toNat = c := Char.ofNat_toNat c
          by_cases h8 : c.toNat = 8
          · have he : escapeChar c = ['\\', 'b'] := by
              simp [escapeChar, hq, hbs, hctl, h8]
            rw [he] at hf ⊢
            simp only [List.length_cons, List.length_append] at hf
            cases f with
            | zero => omega
            | succ f =>
              have harg := ih f (by omega)
              have hc : Char.ofNat 8 = c := Eq.trans (congrArg Char.ofNat h8.symm) hval
              simp only [parseStrA, List.append_eq, List.cons_append, List.nil_append]
              simp [harg]
              exact hc
          · by_cases h9 : c.toNat = 9
            · have he : escapeChar c = ['\\', 't'] := by
                simp [escapeChar, hq, hbs, hctl, h8, h9]
              rw [he] at hf ⊢
              simp only [List.length_cons, List.length_append] at hf
              cases f with
              | zero => omega
              | succ f =>
                have harg := ih f (by omega)
                have hc : ('\t' : Char) = c :=
                  Eq.trans (by decide) (Eq.trans (congrArg Char.ofNat h9.symm) hval)
                simp only [parseStrA, List.append_eq, List.cons_append, List.nil_append]
                simp [harg]
                exact hc
            · by_cases h10 : c.toNat = 10
              · have he : escapeChar c = ['\\', 'n'] := by
                  simp [escapeChar, hq, hbs, hctl, h8, h9, h10]
                rw [he] at hf ⊢
                simp only [List.length_cons, List.length_append] at hf
                cases f with
                | zero => omega
                | succ f =>
                  have harg := ih f (by omega)
                  have hc : ('\n' : Char) = c :=
                    Eq.trans (by decide) (Eq.trans (congrArg Char.ofNat h10.symm) hval)
                  simp only [parseStrA, List.append_eq, List.cons_append, List.nil_append]
                  simp [harg]
                  exact hc
              · by_cases h12 : c.toNat = 12
                · have he : escapeChar c = ['\\', 'f'] := by
                    simp [escapeChar, hq, hbs, hctl, h8, h9, h10, h12]
                  rw [he] at hf ⊢
                  simp only [List.length_cons, List.length_append] at hf
                  cases f with
                  | zero => omega
                  | succ f =>
                    have harg := ih f (by omega)
                    have hc : Char.ofNat 12 = c := Eq.trans (congrArg Char.ofNat h12.symm) hval
                    simp only [parseStrA, List.append_eq, List.cons_append, List.nil_append]
                    simp [harg]
                    exact hc
                · by_cases h13 : c.toNat = 13
                  · have he : escapeChar c = ['\\', 'r'] := by
                      simp [escapeChar, hq, hbs, hctl, h8, h9, h10, h12, h13]
                    rw [he] at hf ⊢
                    simp only [List.length_cons, List.length_append] at hf
                    cases f with
                    | zero => omega
                    | succ f =>
                      have harg := ih f (by omega)
                      have hc : ('\r' : Char) = c :=
                        Eq.trans (by decide) (Eq.trans (congrArg Char.ofNat h13.symm) hval)
                      simp only [parseStrA, List.append_eq, List.cons_append, List.nil_append]
                      simp [harg]
                      exact hc
                  · have he : escapeChar c = ['\\', 'u', '0', '0',
                        hexDigitChar (c.toNat / 16), hexDigitChar (c.toNat % 16)] := by
                      simp [escapeChar, hq, hbs, hctl, h8, h9, h10, h12, h13]
                    rw [he] at hf ⊢
                    simp only [List.length_cons, List.length_append] at hf
                    cases f with
                    | zero => omega
                    | succ f =>
                      have harg := ih f (by omega)
                      have hdl : c.toNat / 16 < 16 := by omega
                      have hml : c.toNat % 16 < 16 := by omega
                      have hv0 : hexVal '0' = some 0 := by decide
                      simp only [parseStrA, List.append_eq, List.cons_append, List.nil_append]
                      simp [hv0, hexVal_hexDigitChar _ hdl, hexVal_hexDigitChar _ hml]
                      rw [if_neg (by omega), if_neg (by omega)]
                      rw [harg]
                      simp
                      convert hval using 2
                      omega
        · have he : escapeChar c = [c] := by
            simp [escapeChar, hq, hbs, hctl]
          rw [he] at hf ⊢
          simp only [List.length_cons, List.length_append] at hf
          cases f with
          | zero => omega
          | succ f =>
            have harg := ih f (by omega)
            simp only [parseStrA, List.append_eq, List.cons_append, List.nil_append]
            rw [if_neg hq, if_neg hbs, if_neg hctl, harg]
            rfl

theorem renderNat_length_small (m : Nat) (hm : m < 10) : (renderNat m).length = 1 := by
  by_cases h0 : m = 0
  · subst h0
    rfl
  · rw [renderNat, if_neg h0, natDigitsRevA_succ_eq m (by omega), Nat.div_eq_of_lt hm]
    rfl

theorem renderNat_guard (m : Nat) :
    ¬ (1 < (renderNat m).length ∧ (renderNat m).head? = some '0') := by
  by_cases hm : m < 10
  · intro h
    rw [renderNat_length_small m hm] at h
    omega
  · obtain ⟨d, hd0, hd10, hh⟩ := renderNat_head_big m (by omega)
    intro h
    rw [hh] at h
    have hdc : digitChar d = '0' := Option.some.inj h.2
    have hcn := congrArg Char.toNat hdc
    rw [toNat_digitChar d hd10] at hcn
    have h0 : ('0' : Char).toNat = 48 := by decide
    rw [h0] at hcn
    omega

theorem intOrFloat_renderNat_neg (m : Nat) (hm : m ≤ 2147483648) :
    intOrFloat true (renderNat m) = .jint (-(m : Int)) := by
  simp [intOrFloat, digitsVal_renderNat]
  omega

theorem intOrFloat_renderNat_pos (m : Nat) (hm : m ≤ 2147483648) :
    intOrFloat false (renderNat m) = .jint ((m : Int)) := by
  simp [intOrFloat, digitsVal_renderNat]
  omega

theorem parseNumberBody_renderNat (neg : Bool) (m : Nat) (rest : List Char)
    (hrest : ∀ c, rest.head? = some c →
      (c.isDigit = false ∧ ¬ c = '.' ∧ ¬ c = 'e' ∧ ¬ c = 'E')) :
    parseNumberBody neg (renderNat m ++ rest) = some (intOrFloat neg (renderNat m), rest) := by
  have hspan := takeWhile_all_append Char.isDigit (renderNat m) rest (renderNat_digits m)
    (fun c hc => (hrest c hc).1)
  have hguard := renderNat_guard m
  rcases hr : renderNat m with _ | ⟨c0, cs0⟩
  · exact absurd hr (renderNat_ne_nil m)
  · have hdig : c0.isDigit = true := by
      apply renderNat_digits m
      rw [hr]
      exact List.mem_cons_self c0 cs0
    rw [hr] at hspan hguard
    simp only [List.cons_append] at hspan ⊢
    simp only [parseNumberBody, hdig, Bool.not_true, Bool.false_eq_true, if_false,
      hspan.1, hspan.2]
    rw [if_neg hguard]
    rcases rest with _ | ⟨c, t⟩
    · rfl
    · obtain ⟨hcd, hcdot, hce, hcE⟩ := hrest c rfl
      split
      · rename_i r2 heq
        exact absurd (List.cons.inj heq).1 hcdot
      · rename_i e r2 heq
        obtain ⟨he, hr2⟩ := List.cons.inj heq
        subst he
        subst hr2
        rw [if_neg (by simp [hce, hcE])]
      · rename_i heq
        exact absurd heq (by simp)

theorem parseNumber_eq_body (m : Nat) (rest : List Char) :
    parseNumber (renderNat m ++ rest) = parseNumberBody false (renderNat m ++ rest) := by
  rcases hr : renderNat m with _ | ⟨c0, cs0⟩
  · exact absurd hr (renderNat_ne_nil m)
  · have hdig : c0.isDigit = true := by
      apply renderNat_digits m
      rw [hr]
      exact List.mem_cons_self c0 cs0
    have hcm : ¬ c0 = '-' := by
      intro h
      have hb := toNat_bounds_of_isDigit c0 hdig
      rw [h] at hb
      exact absurd hb (by decide)
    simp only [List.cons_append, parseNumber]
    split
    · rename_i t heq
      exact absurd (List.cons.inj heq).1 hcm
    · rfl

theorem parseNumber_renderInt (n : Int) (hmin : i32Min ≤ n) (hmax : n ≤ i32Max)
    (rest : List Char)
    (hrest : ∀ c, rest.head? = some c →
      (c.isDigit = false ∧ ¬ c = '.' ∧ ¬ c = 'e' ∧ ¬ c = 'E')) :
    parseNumber (renderInt n ++ rest) = some (.jint n, rest) := by
  by_cases hneg : n < 0
  · rw [renderInt, if_pos hneg]
    simp only [List.cons_append, parseNumber]
    rw [parseNumberBody_renderNat true n.natAbs rest hrest]
    rw [intOrFloat_renderNat_neg n.natAbs (by simp [i32Min] at hmin; omega)]
    have h2 : -((n.natAbs : Nat) : Int) = n := by omega
    rw [h2]
  · rw [renderInt, if_neg hneg]
    rw [parseNumber_eq_body n.natAbs rest]
    rw [parseNumberBody_renderNat false n.natAbs rest hrest]
    rw [intOrFloat_renderNat_pos n.natAbs (by simp [i32Max] at hmax; omega)]
    have h2 : ((n.natAbs : Nat) : Int) = n := by omega
    rw [h2]

theorem parseValue_null (f : Nat) (rest : List Char) :
    parseValue (f + 1) (('n' :: 'u' :: 'l' :: 'l' :: []) ++ rest) = some (.jnull, rest) := by
  simp [parseValue, skipWs, isJsonWs, List.isPrefixOf]

theorem renderInt_head (n : Int) :
    ∃ c0 cs0, renderInt n = c0 :: cs0 ∧ 45 ≤ c0.toNat ∧ c0.toNat ≤ 57 := by
  by_cases hneg : n < 0
  · refine ⟨'-', renderNat n.natAbs, ?_, by decide, by decide⟩
    rw [renderInt, if_pos hneg]
  · rcases hr : renderNat n.natAbs with _ | ⟨c0, cs0⟩
    · exact absurd hr (renderNat_ne_nil n.natAbs)
    · have hdig : c0.isDigit = true := by
        apply renderNat_digits n.natAbs
        rw [hr]
        exact List.mem_cons_self c0 cs0
      have hb := toNat_bounds_of_isDigit c0 hdig
      refine ⟨c0, cs0, ?_, by omega, by omega⟩
      rw [renderInt, if_neg hneg, hr]

theorem parseValue_int (f : Nat) (n : Int) (hmin : i32Min ≤ n) (hmax : n ≤ i32Max)
    (rest : List Char)
    (hrest : ∀ c, rest.head? = some c →
      (c.isDigit = false ∧ ¬ c = '.' ∧ ¬ c = 'e' ∧ ¬ c = 'E')) :
    parseValue (f + 1) (renderInt n ++ rest) = some (.jint n, rest) := by
  obtain ⟨c0, cs0, hr, hlo, hhi⟩ := renderInt_head n
  have hnum := parseNumber_renderInt n hmin hmax rest hrest
  rw [hr] at hnum ⊢
  simp only [List.cons_append] at hnum ⊢
  have hws : isJsonWs c0 = false := isJsonWs_false_of_ge c0 (by omega)
  simp only [parseValue, skipWs, List.dropWhile_cons, hws, Bool.false_eq_true, if_false]
  split
  · rename_i t heq
    have := (List.cons.inj heq).1
    rw [this] at hlo hhi
    exact absurd (And.intro hlo hhi) (by decide)
  · rename_i t heq
    have := (List.cons.inj heq).1
    rw [this] at hlo hhi
    exact absurd (And.intro hlo hhi) (by decide)
  · rename_i t heq
    have := (List.cons.inj heq).1
    rw [this] at hlo hhi
    exact absurd (And.intro hlo hhi) (by decide)
  · rename_i t heq
    have := (List.cons.inj heq).1
    rw [this] at hlo hhi
    exact absurd (And.intro hlo hhi) (by decide)
  · rename_i t heq
    have := (List.cons.inj heq).1
    rw [this] at hlo hhi
    exact absurd (And.intro hlo hhi) (by decide)
  · rename_i t heq
    have := (List.cons.inj heq).1
    rw [this] at hlo hhi
    exact absurd (And.intro hlo hhi) (by decide)
  · exact hnum

theorem parseValue_str (f : Nat) (s : String) (rest : List Char) :
    parseValue (f + 1) (jstrChars s ++ rest) = some (.jstr s, rest) := by
  have hshape : jstrChars s ++ rest = '"' :: (escList s.data ++ ('"' :: rest)) := by
    simp [jstrChars]
  rw [hshape]
  have hsr := parseStrA_round s.data rest (escList s.data ++ ('"' :: rest)).length
    (by simp [List.length_append]; omega)
  simp only [List.length_append, List.length_cons] at hsr
  have hmk : String.mk s.data = s := rfl
  simp [parseValue, skipWs, isJsonWs, hsr, hmk]

theorem parseStrA_key_id (R : List Char) :
    parseStrA (('i' :: 'd' :: '"' :: R).length) ('i' :: 'd' :: '"' :: R)
      = some (['i', 'd'], R) := by
  simp [parseStrA]

theorem parseStrA_key_name (R : List Char) :
    parseStrA (('n' :: 'a' :: 'm' :: 'e' :: '"' :: R).length)
        ('n' :: 'a' :: 'm' :: 'e' :: '"' :: R)
      = some (['n', 'a', 'm', 'e'], R) := by
  simp [parseStrA]

theorem parseStrA_key_email (R : List Char) :
    parseStrA (('e' :: 'm' :: 'a' :: 'i' :: 'l' :: '"' :: R).length)
        ('e' :: 'm' :: 'a' :: 'i' :: 'l' :: '"' :: R)
      = some (['e', 'm', 'a', 'i', 'l'], R) := by
  simp [parseStrA]

theorem skipWs_cons (c : Char) (l : List Char) (h : isJsonWs c = false) :
    skipWs (c :: l) = c :: l := by
  simp [skipWs, h]

set_option maxHeartbeats 1600000 in
theorem parseValue_user (u : User)
    (hrange : match u.id with | some n => i32Min ≤ n ∧ n ≤ i32Max | none => True)
    (f : Nat) (rest : List Char) :
    parseValue (f + 5) (userToJsonChars u ++ rest) = some (userJson u, rest) := by
  obtain ⟨uid, uname, uemail⟩ := u
  have hswq : ∀ (l : List Char), skipWs ('"' :: l) = '"' :: l :=
    fun l => skipWs_cons _ l (by decide)
  have hswc : ∀ (l : List Char), skipWs (':' :: l) = ':' :: l :=
    fun l => skipWs_cons _ l (by decide)
  have hswm : ∀ (l : List Char), skipWs (',' :: l) = ',' :: l :=
    fun l => skipWs_cons _ l (by decide)
  have hswb : ∀ (l : List Char), skipWs ('\x7d' :: l) = '\x7d' :: l :=
    fun l => skipWs_cons _ l (by decide)
  have hswo : ∀ (l : List Char), skipWs ('\x7b' :: l) = '\x7b' :: l :=
    fun l => skipWs_cons _ l (by decide)
  have hmkid : String.mk ['i', 'd'] = ("id") := rfl
  have hmkname : String.mk ['n', 'a', 'm', 'e'] = ("name") := rfl
  have hmkemail : String.mk ['e', 'm', 'a', 'i', 'l'] = ("email") := rfl
  have hv3 : parseValue (f + 1) (jstrChars uemail ++ ('\x7d' :: rest))
      = some (Json.jstr uemail, '\x7d' :: rest) := parseValue_str f uemail _
  have hv2 : parseValue (f + 2) (jstrChars uname
      ++ (',' :: '"' :: 'e' :: 'm' :: 'a' :: 'i' :: 'l' :: '"' :: ':'
        :: (jstrChars uemail ++ ('\x7d' :: rest))))
      = some (Json.jstr uname, ',' :: '"' :: 'e' :: 'm' :: 'a' :: 'i' :: 'l' :: '"' :: ':'
        :: (jstrChars uemail ++ ('\x7d' :: rest))) := parseValue_str (f + 1) uname _
  cases uid with
  | none =>
    have hv1 : parseValue (f + 3)
        ('n' :: 'u' :: 'l' :: 'l'
          :: (',' :: '"' :: 'n' :: 'a' :: 'm' :: 'e' :: '"' :: ':'
            :: (jstrChars uname
              ++ (',' :: '"' :: 'e' :: 'm' :: 'a' :: 'i' :: 'l' :: '"' :: ':'
                :: (jstrChars uemail ++ ('\x7d' :: rest))))))
        = some (Json.jnull, ',' :: '"' :: 'n' :: 'a' :: 'm' :: 'e' :: '"' :: ':'
            :: (jstrChars uname
              ++ (',' :: '"' :: 'e' :: 'm' :: 'a' :: 'i' :: 'l' :: '"' :: ':'
                :: (jstrChars uemail ++ ('\x7d' :: rest))))) := by
      have hpn := parseValue_null (f + 2)
        (',' :: '"' :: 'n' :: 'a' :: 'm' :: 'e' :: '"' :: ':'
          :: (jstrChars uname
            ++ (',' :: '"' :: 'e' :: 'm' :: 'a' :: 'i' :: 'l' :: '"' :: ':'
              :: (jstrChars uemail ++ ('\x7d' :: rest)))))
      simpa using hpn
    have hm1 : parseMembers (f + 4)
        ('"' :: 'i' :: 'd' :: '"' :: ':'
          :: ('n' :: 'u' :: 'l' :: 'l'
            :: (',' :: '"' :: 'n' :: 'a' :: 'm' :: 'e' :: '"' :: ':'
              :: (jstrChars uname
                ++ (',' :: '"' :: 'e' :: 'm' :: 'a' :: 'i' :: 'l' :: '"' :: ':'
                  :: (jstrChars uemail ++ ('\x7d' :: rest)))))))
        = some ([(("id"), Json.jnull), (("name"), Json.jstr uname),
            (("email"), Json.jstr uemail)], rest) := by
      simp only [parseMembers, hswq, hswc, hswm, hswb, parseStrA_key_id,
        parseStrA_key_name, parseStrA_key_email, hv1, hv2, hv3, hmkid, hmkname, hmkemail]
      simp
    have hshape : userToJsonChars ⟨none, uname, uemail⟩ ++ rest
        = '\x7b' :: '"' :: 'i' :: 'd' :: '"' :: ':'
          :: ('n' :: 'u' :: 'l' :: 'l'
            :: (',' :: '"' :: 'n' :: 'a' :: 'm' :: 'e' :: '"' :: ':'
              :: (jstrChars uname
                ++ (',' :: '"' :: 'e' :: 'm' :: 'a' :: 'i' :: 'l' :: '"' :: ':'
                  :: (jstrChars uemail ++ ('\x7d' :: rest)))))) := by
      simp [userToJsonChars]
    rw [hshape]
    simp only [parseValue, hswo, hswq, hm1, Option.map_some]
    simp [userJson, hm1]
  | some n =>
    have hrange' : i32Min ≤ n ∧ n ≤ i32Max := by simpa using hrange
    have hv1 : parseValue (f + 3)
        (renderInt n
          ++ (',' :: '"' :: 'n' :: 'a' :: 'm' :: 'e' :: '"' :: ':'
            :: (jstrChars uname
              ++ (',' :: '"' :: 'e' :: 'm' :: 'a' :: 'i' :: 'l' :: '"' :: ':'
                :: (jstrChars uemail ++ ('\x7d' :: rest))))))
        = some (Json.jint n, ',' :: '"' :: 'n' :: 'a' :: 'm' :: 'e' :: '"' :: ':'
            :: (jstrChars uname
              ++ (',' :: '"' :: 'e' :: 'm' :: 'a' :: 'i' :: 'l' :: '"' :: ':'
                :: (jstrChars uemail ++ ('\x7d' :: rest))))) := by
      apply parseValue_int (f + 2) n hrange'.1 hrange'.2
      intro c hc
      have hcc : c = ',' := by simpa using hc.symm
      subst hcc
      exact ⟨by decide, by decide, by decide, by decide⟩
    have hm1 : parseMembers (f + 4)
        ('"' :: 'i' :: 'd' :: '"' :: ':'
          :: (renderInt n
            ++ (',' :: '"' :: 'n' :: 'a' :: 'm' :: 'e' :: '"' :: ':'
              :: (jstrChars uname
                ++ (',' :: '"' :: 'e' :: 'm' :: 'a' :: 'i' :: 'l' :: '"' :: ':'
                  :: (jstrChars uemail ++ ('\x7d' :: rest)))))))
        = some ([(("id"), Json.jint n), (("name"), Json.jstr uname),
            (("email"), Json.jstr uemail)], rest) := by
      simp only [parseMembers, hswq, hswc, hswm, hswb, parseStrA_key_id,
        parseStrA_key_name, parseStrA_key_email, hv1, hv2, hv3, hmkid, hmkname, hmkemail]
      simp
    have hshape : userToJsonChars ⟨some n, uname, uemail⟩ ++ rest
        = '\x7b' :: '"' :: 'i' :: 'd' :: '"' :: ':'
          :: (renderInt n
            ++ (',' :: '"' :: 'n' :: 'a' :: 'm' :: 'e' :: '"' :: ':'
              :: (jstrChars uname
                ++ (',' :: '"' :: 'e' :: 'm' :: 'a' :: 'i' :: 'l' :: '"' :: ':'
                  :: (jstrChars uemail ++ ('\x7d' :: rest)))))) := by
      simp [userToJsonChars]
    rw [hshape]
    simp only [parseValue, hswo, hswq, hm1, Option.map_some]
    simp [userJson, hm1]

theorem userToJsonChars_len (u : User) : 3 ≤ (userToJsonChars u).length := by
  obtain ⟨uid, uname, uemail⟩ := u
  cases uid <;> simp [userToJsonChars, jstrChars]

theorem jsonFromStr_user (u : User)
    (hrange : match u.id with | some n => i32Min ≤ n ∧ n ≤ i32Max | none => True) :
    jsonFromStr (userToJsonChars u) = some (userJson u) := by
  have hlen := userToJsonChars_len u
  have hfe : (userToJsonChars u).length + 2 = ((userToJsonChars u).length - 3) + 5 := by
    omega
  have hpv := parseValue_user u hrange ((userToJsonChars u).length - 3) []
  rw [List.append_nil] at hpv
  simp only [jsonFromStr, hfe, hpv]
  simp [skipWs]

theorem userFromJson_userJson (u : User)
    (hrange : match u.id with | some n => i32Min ≤ n ∧ n ≤ i32Max | none => True) :
    userFromJson (userJson u) = some u := by
  obtain ⟨uid, uname, uemail⟩ := u
  cases uid with
  | none => simp [userJson, userFromJson, userFieldsGo, jsonToOptI32, jsonToStr]
  | some n =>
    have hrange' : i32Min ≤ n ∧ n ≤ i32Max := by simpa using hrange
    simp [userJson, userFromJson, userFieldsGo, jsonToOptI32, jsonToStr, hrange']

/-- C9: string-level round trip: serde_json-serializing any User (id in
the 32-bit range when present, arbitrary name and email) and parsing the
produced text back with serde_json yields the same User — the same id
(also when absent), the same name, and the same email. -/
theorem user_json_roundtrip (u : User)
    (hrange : match u.id with | some n => i32Min ≤ n ∧ n ≤ i32Max | none => True) :
    userFromStr (userToJsonChars u) = some u := by
  simp only [userFromStr]
  rw [jsonFromStr_user u hrange]
  exact userFromJson_userJson u hrange

/-- C9 witness: a concrete user with spaces and a quote in its fields
survives the round trip. -/
theorem user_json_roundtrip_witness :
    (i32Min ≤ (5 : Int) ∧ (5 : Int) ≤ i32Max)
    ∧ userFromStr (userToJsonChars ⟨some 5, ("a b"), ("c\"d")⟩)
      = some ⟨some 5, ("a b"), ("c\"d")⟩ :=
  ⟨by decide, user_json_roundtrip ⟨some 5, ("a b"), ("c\"d")⟩ (by decide)⟩

end Crud
